import Mathlib

/-!
Shallow embedding of the workshop-app client (js/config.js, js/utils.js,
js/firebase.js, the facilitator controller, and the two Netlify proxy
functions), together with theorems settling the spec claims.

Modelling conventions:
* JS strings are Lean `String`; character classes from the JS regexes are
  decidable predicates on `Char` via code points (ASCII fragment; the
  validators and the generated room codes only ever produce ASCII output).
* The hosted realtime store is a `Store` of association lists keyed by the
  same paths the code writes (`sessions/{code}`,
  `sessions/{code}/participants/{id}`, `transcripts/{code}/{pushKey}`,
  `themes/{code}/table{n}`).  A Firebase node may hold only a subset of its
  fields (a sub-path write on a missing record creates a partial node), so
  record fields are `Option`-valued; `none` models an absent field, which is
  also how Firebase stores a JS `null`.
* A rejected store write leaves the store unchanged; each adapter operation
  takes explicit `readFails` / `writeFails` flags standing for the underlying
  promise rejecting.  The source wraps every operation body in
  `try`/`catch`: the `catch` branch is the corresponding failure branch of
  the Lean function, so the operations are total functions (no exception
  escapes to the caller by construction).
* Server timestamps (`ServerValue.TIMESTAMP`) are set by the hosted store and
  are omitted from the records.
-/

/-! ## Configuration constants (js/config.js, CONFIG.APP) -/

def SESSION_CODE_LENGTH : Nat := 6
def MAX_NAME_LENGTH : Nat := 50
def MIN_NAME_LENGTH : Nat := 2

/-! ## Character classes and string helpers (js/utils.js) -/

/-- JS whitespace (`\s` and what `String.prototype.trim` strips), ASCII
fragment: space, tab, LF, VT, FF, CR. -/
def jsWhitespace (c : Char) : Bool :=
  c.toNat = 32 || c.toNat = 9 || c.toNat = 10 || c.toNat = 11 ||
  c.toNat = 12 || c.toNat = 13

/-- The character class `[A-Z0-9]` of the room-code regex. -/
def isRoomChar (c : Char) : Bool :=
  (65 ≤ c.toNat && c.toNat ≤ 90) || (48 ≤ c.toNat && c.toNat ≤ 57)

/-- The character class `\w` = `[A-Za-z0-9_]`. -/
def isWordChar (c : Char) : Bool :=
  (65 ≤ c.toNat && c.toNat ≤ 90) || (97 ≤ c.toNat && c.toNat ≤ 122) ||
  (48 ≤ c.toNat && c.toNat ≤ 57) || c.toNat = 95

/-- The apostrophe character (code point 39), spelled via `Char.ofNat`. -/
def apostropheChar : Char := Char.ofNat 39

/-- The character class `[\w\s\-']` kept by the participant-name sanitizer. -/
def isNameAllowedChar (c : Char) : Bool :=
  isWordChar c || jsWhitespace c || c.toNat = 45 || c.toNat = 39

/-- `String.prototype.trim` on a character list. -/
def jsTrim (l : List Char) : List Char :=
  ((l.dropWhile jsWhitespace).reverse.dropWhile jsWhitespace).reverse

/-- `String.prototype.toUpperCase`, ASCII fragment. -/
def jsToUpper (c : Char) : Char :=
  if 97 ≤ c.toNat ∧ c.toNat ≤ 122 then Char.ofNat (c.toNat - 32) else c

/-- `code.trim().toUpperCase().replace(/[^A-Z0-9]/g, '')` as a list pipeline. -/
def sanitizeRoomChars (l : List Char) : List Char :=
  ((jsTrim l).map jsToUpper).filter isRoomChar

/-- `Utils.validateRoomCode` (js/utils.js): `null` (here `none`) on the falsy
or wrong-length branches, the sanitized code otherwise. -/
def validateRoomCode (code : String) : Option String :=
  if code = "" then none
  else
    let sanitized := sanitizeRoomChars code.toList
    if sanitized.length ≠ SESSION_CODE_LENGTH then none
    else some (String.mk sanitized)

/-- `name.trim().substring(0, MAX_NAME_LENGTH)`. -/
def nameSanitized (l : List Char) : List Char :=
  (jsTrim l).take MAX_NAME_LENGTH

/-- The two `replace` calls of `validateParticipantName`:
`[<>]` first, then everything outside `[\w\s\-']`. -/
def stripNameChars (l : List Char) : List Char :=
  (l.filter (fun c => !(c.toNat = 60 || c.toNat = 62))).filter isNameAllowedChar

/-- `Utils.validateParticipantName` (js/utils.js): the length check runs on
the trimmed, truncated string; the character stripping runs after it. -/
def validateParticipantName (name : String) : Option String :=
  if name = "" then none
  else
    let sanitized := nameSanitized name.toList
    if sanitized.length < MIN_NAME_LENGTH then none
    else some (String.mk (stripNameChars sanitized))

/-- The room-code alphabet of `Utils.generateRoomCode`
(`'ABCDEFGHJKLMNPQRSTUVWXYZ23456789'`, ambiguous characters excluded). -/
def ROOM_CODE_CHARS : List Char := "ABCDEFGHJKLMNPQRSTUVWXYZ23456789".toList

/-- `Utils.generateRoomCode`: `SESSION_CODE_LENGTH` draws from the alphabet;
`rand i` models the `i`-th `Math.floor(Math.random() * chars.length)`, taken
modulo the alphabet length, so every in-range draw is representable. -/
def generateRoomCode (rand : Nat → Nat) : String :=
  String.mk ((List.range SESSION_CODE_LENGTH).map fun i =>
    ROOM_CODE_CHARS.getD (rand i % ROOM_CODE_CHARS.length) 'A')

/-! ## List helper lemmas -/

theorem dropWhile_eq_self_of_none (p : Char → Bool) (l : List Char)
    (h : ∀ c ∈ l, p c = false) : l.dropWhile p = l := by
  cases l with
  | nil => rfl
  | cons a t => simp [List.dropWhile_cons, h a (by simp)]

theorem map_eq_self_of_fix (f : Char → Char) (l : List Char)
    (h : ∀ c ∈ l, f c = c) : l.map f = l := by
  induction l with
  | nil => rfl
  | cons a t ih =>
      simp only [List.map_cons, h a (by simp)]
      rw [ih (fun c hc => h c (by simp [hc]))]

theorem jsTrim_eq_self (l : List Char) (h : ∀ c ∈ l, jsWhitespace c = false) :
    jsTrim l = l := by
  unfold jsTrim
  rw [dropWhile_eq_self_of_none jsWhitespace l h,
      dropWhile_eq_self_of_none jsWhitespace l.reverse
        (fun c hc => h c (List.mem_reverse.mp hc)),
      List.reverse_reverse]

/-! ## Character class facts -/

theorem isRoomChar_not_ws (c : Char) (h : isRoomChar c = true) :
    jsWhitespace c = false := by
  simp only [isRoomChar, Bool.or_eq_true, Bool.and_eq_true, decide_eq_true_eq] at h
  simp only [jsWhitespace, Bool.or_eq_false_iff, decide_eq_false_iff_not]
  omega

theorem isRoomChar_toUpper (c : Char) (h : isRoomChar c = true) :
    jsToUpper c = c := by
  simp only [isRoomChar, Bool.or_eq_true, Bool.and_eq_true, decide_eq_true_eq] at h
  unfold jsToUpper
  rw [if_neg]
  omega

/-! ## Validator lemmas -/

theorem sanitizeRoomChars_eq_self (l : List Char)
    (h : ∀ c ∈ l, isRoomChar c = true) : sanitizeRoomChars l = l := by
  unfold sanitizeRoomChars
  rw [jsTrim_eq_self l (fun c hc => isRoomChar_not_ws c (h c hc)),
      map_eq_self_of_fix jsToUpper l (fun c hc => isRoomChar_toUpper c (h c hc)),
      List.filter_eq_self.mpr h]

theorem validateRoomCode_mk (l : List Char)
    (hlen : l.length = SESSION_CODE_LENGTH)
    (h : ∀ c ∈ l, isRoomChar c = true) :
    validateRoomCode (String.mk l) = some (String.mk l) := by
  have hne : String.mk l ≠ "" := by
    intro he
    have hd : l = [] := by simpa using congrArg String.data he
    rw [hd] at hlen
    simp [SESSION_CODE_LENGTH] at hlen
  unfold validateRoomCode
  rw [if_neg hne]
  have htl : (String.mk l).toList = l := rfl
  rw [htl, sanitizeRoomChars_eq_self l h]
  simp [hlen]

theorem validateRoomCode_shape (s r : String) (h : validateRoomCode s = some r) :
    r.toList.length = SESSION_CODE_LENGTH ∧ ∀ c ∈ r.toList, isRoomChar c = true := by
  unfold validateRoomCode at h
  by_cases hs : s = ""
  · rw [if_pos hs] at h; exact absurd h (by simp)
  · rw [if_neg hs] at h
    by_cases hl : (sanitizeRoomChars s.toList).length ≠ SESSION_CODE_LENGTH
    · rw [if_pos hl] at h; exact absurd h (by simp)
    · rw [if_neg hl] at h
      have hr : r = String.mk (sanitizeRoomChars s.toList) := by
        cases h; rfl
      have htl : r.toList = sanitizeRoomChars s.toList := by rw [hr]; rfl
      constructor
      · rw [htl]; omega
      · intro c hc
        rw [htl] at hc
        exact (List.mem_filter.mp hc).2

theorem string_mk_toList (s : String) : String.mk s.toList = s := by
  cases s
  rfl

theorem validateRoomCode_idempotent (s r : String)
    (h : validateRoomCode s = some r) : validateRoomCode r = some r := by
  obtain ⟨hlen, hchars⟩ := validateRoomCode_shape s r h
  have := validateRoomCode_mk r.toList hlen hchars
  rwa [string_mk_toList] at this

theorem validateParticipantName_chars (s r : String)
    (h : validateParticipantName s = some r) :
    ∀ c ∈ r.toList, isNameAllowedChar c = true := by
  unfold validateParticipantName at h
  by_cases hs : s = ""
  · rw [if_pos hs] at h; exact absurd h (by simp)
  · rw [if_neg hs] at h
    by_cases hl : (nameSanitized s.toList).length < MIN_NAME_LENGTH
    · rw [if_pos hl] at h; exact absurd h (by simp)
    · rw [if_neg hl] at h
      have hr : r = String.mk (stripNameChars (nameSanitized s.toList)) := by
        cases h; rfl
      intro c hc
      have htl : r.toList = stripNameChars (nameSanitized s.toList) := by
        rw [hr]; rfl
      rw [htl] at hc
      exact (List.mem_filter.mp hc).2

theorem validateRoomCode_reject (s : String)
    (h : (sanitizeRoomChars s.toList).length ≠ SESSION_CODE_LENGTH) :
    validateRoomCode s = none := by
  unfold validateRoomCode
  by_cases hs : s = ""
  · rw [if_pos hs]
  · rw [if_neg hs]
    simp
    exact h

theorem validateParticipantName_reject (s : String) (hs : s ≠ "")
    (h : (nameSanitized s.toList).length < MIN_NAME_LENGTH) :
    validateParticipantName s = none := by
  unfold validateParticipantName
  rw [if_neg hs]
  simp
  exact h

/-- C3 counterexample: the participant-name validator is not idempotent.
On input `"<a"` the validator succeeds with output `"a"` (the `<` is
stripped only after the length check), yet re-applying the validator to that
output fails, because `"a"` is shorter than `MIN_NAME_LENGTH`. -/
theorem claimC3_counterexample :
    validateParticipantName "<a" = some "a" ∧
    validateParticipantName "a" = none := by
  constructor
  · decide
  · decide

/-- C3 (amended): the room-code validator is idempotent (and both validators
reject out-of-range sanitized lengths and strip disallowed characters), but
the participant-name validator is not idempotent, since its character
stripping runs after its length check. -/
theorem claimC3_theorem :
    (∀ s r, validateRoomCode s = some r → validateRoomCode r = some r) ∧
    (∀ s, (sanitizeRoomChars s.toList).length ≠ SESSION_CODE_LENGTH →
      validateRoomCode s = none) ∧
    (∀ s r, validateRoomCode s = some r → ∀ c ∈ r.toList, isRoomChar c = true) ∧
    (∀ s, s ≠ "" → (nameSanitized s.toList).length < MIN_NAME_LENGTH →
      validateParticipantName s = none) ∧
    (∀ s r, validateParticipantName s = some r →
      ∀ c ∈ r.toList, isNameAllowedChar c = true) := by
  refine ⟨validateRoomCode_idempotent, validateRoomCode_reject,
    ?_, validateParticipantName_reject, validateParticipantName_chars⟩
  intro s r h
  exact (validateRoomCode_shape s r h).2

/-- Witness for C3 (amended) at concrete inputs. -/
theorem claimC3_witness :
    validateRoomCode "  ab c1-23 " = some "ABC123" ∧
    validateRoomCode "ABC123" = some "ABC123" ∧
    validateRoomCode "ABCD" = none ∧
    (∀ c ∈ ("ABC123" : String).toList, isRoomChar c = true) ∧
    validateParticipantName " a " = none ∧
    (∀ c ∈ ("Jo Ann-X" : String).toList, isNameAllowedChar c = true) := by
  refine ⟨by decide, ?_, ?_, ?_, ?_, ?_⟩
  · exact claimC3_theorem.1 "  ab c1-23 " "ABC123" (by decide)
  · exact claimC3_theorem.2.1 "ABCD" (by decide)
  · exact claimC3_theorem.2.2.1 "  ab c1-23 " "ABC123" (by decide)
  · exact claimC3_theorem.2.2.2.1 " a " (by decide) (by decide)
  · exact claimC3_theorem.2.2.2.2 "<Jo Ann-X!" "Jo Ann-X" (by decide)

/-- C10: every generated room code has exactly `SESSION_CODE_LENGTH` (6)
characters drawn from the ambiguity-free uppercase/digit alphabet (no `I`,
`O`, `0`, `1`), the trim/uppercase/strip sanitization is the identity on it,
and `validateRoomCode` accepts it and returns it unchanged. -/
theorem claimC10_theorem (rand : Nat → Nat) :
    (generateRoomCode rand).toList.length = SESSION_CODE_LENGTH ∧
    (∀ c ∈ (generateRoomCode rand).toList, c ∈ ROOM_CODE_CHARS) ∧
    ('I' ∉ ROOM_CODE_CHARS ∧ 'O' ∉ ROOM_CODE_CHARS ∧
     '0' ∉ ROOM_CODE_CHARS ∧ '1' ∉ ROOM_CODE_CHARS) ∧
    (∀ c ∈ ROOM_CODE_CHARS, isRoomChar c = true) ∧
    sanitizeRoomChars (generateRoomCode rand).toList =
      (generateRoomCode rand).toList ∧
    validateRoomCode (generateRoomCode rand) = some (generateRoomCode rand) := by
  have hmem : ∀ c ∈ (generateRoomCode rand).toList, c ∈ ROOM_CODE_CHARS := by
    intro c hc
    have hc2 : c ∈ (List.range SESSION_CODE_LENGTH).map fun i =>
        ROOM_CODE_CHARS.getD (rand i % ROOM_CODE_CHARS.length) 'A' := hc
    obtain ⟨i, _, hi⟩ := List.mem_map.mp hc2
    have hlt : rand i % ROOM_CODE_CHARS.length < ROOM_CODE_CHARS.length := by
      apply Nat.mod_lt
      decide
    rw [← hi, List.getD_eq_getElem ROOM_CODE_CHARS 'A' hlt]
    exact List.getElem_mem hlt
  have hroom : ∀ c ∈ ROOM_CODE_CHARS, isRoomChar c = true := by decide
  have hlen : (generateRoomCode rand).toList.length = SESSION_CODE_LENGTH := by
    simp [generateRoomCode, String.toList]
  have hall : ∀ c ∈ (generateRoomCode rand).toList, isRoomChar c = true :=
    fun c hc => hroom c (hmem c hc)
  have hsan : sanitizeRoomChars (generateRoomCode rand).toList =
      (generateRoomCode rand).toList := sanitizeRoomChars_eq_self _ hall
  refine ⟨hlen, hmem, by decide, hroom, hsan, ?_⟩
  have := validateRoomCode_mk (generateRoomCode rand).toList hlen hall
  rwa [string_mk_toList] at this

/-! ## Store data model (js/firebase.js)

Association lists model the Realtime Database tree.  Record fields are
`Option`-valued because Firebase keeps no schema: a sub-path write on a
missing record creates a node carrying only that field, and writing `null`
removes a field. -/

/-- `sessions/{code}` node.  Field order follows `createSession`;
`createdAt` (a server timestamp) is omitted. -/
structure SessionNode where
  code : Option String
  facilitatorId : Option String
  facilitatorName : Option String
  phase : Option Int
  timerActive : Option Bool
  timerDuration : Option Int
  status : Option String
deriving DecidableEq

def emptySessionNode : SessionNode :=
  ⟨none, none, none, none, none, none, none⟩

/-- `sessions/{code}/participants/{id}` node.  `joinSession` writes
`tableNumber: null`, which Firebase stores as an absent field (`none`);
`joinedAt` (a server timestamp) is omitted. -/
structure ParticipantRec where
  id : Option String
  name : Option String
  status : Option String
  tableNumber : Option Int
deriving DecidableEq

/-- `transcripts/{code}/{pushKey}` node; `timestamp` omitted. -/
structure TranscriptRec where
  sessionCode : String
  tableNumber : Nat
  phaseIndex : Int
  transcript : String
  duration : Int
deriving DecidableEq

/-- `themes/{code}/table{n}` node; `timestamp` omitted. -/
structure ThemeRec where
  sessionCode : String
  tableNumber : Nat
  themes : List String
  synthesis : Option String
deriving DecidableEq

/-- Association-list read. -/
def alGet {κ α : Type} [DecidableEq κ] (l : List (κ × α)) (k : κ) : Option α :=
  (l.find? (fun p => decide (p.1 = k))).map (fun p => p.2)

/-- Association-list overwrite (Firebase `set`: last write wins per path). -/
def alSet {κ α : Type} [DecidableEq κ] (l : List (κ × α)) (k : κ) (v : α) :
    List (κ × α) :=
  (k, v) :: l.filter (fun p => decide (p.1 ≠ k))

/-- The database tree.  Transcripts are kept oldest-first, matching the
ascending chronological order of Firebase push keys; `nextPushId` models the
push-key generator. -/
structure Store where
  sessions : List (String × SessionNode)
  participants : List ((String × String) × ParticipantRec)
  transcripts : List (String × String × TranscriptRec)
  themes : List ((String × Nat) × ThemeRec)
  nextPushId : Nat
deriving DecidableEq

def emptyStore : Store := ⟨[], [], [], [], 0⟩

/-- A snapshot of `sessions/{code}` "exists" when any data lives under that
path: the session node itself, or any participant scoped under it. -/
def sessionNodeExists (st : Store) (code : String) : Bool :=
  (alGet st.sessions code).isSome ||
    st.participants.any (fun p => decide (p.1.1 = code))

/-! ## Adapter operations (js/firebase.js)

Each operation returns the resulting store, the value returned to the
caller, and the list of user-visible errors it surfaced via
`Utils.showError`.  `JSRet` is the JS value returned: the adapter mixes
booleans with `newRef.key` / `null`. -/

inductive JSRet where
  | bool (b : Bool)
  | str (s : String)
  | null
deriving DecidableEq

structure OpResult where
  store : Store
  ret : JSRet
  errors : List String
deriving DecidableEq

/-- `FirebaseService.createSession`: one `set` on `sessions/{code}`; the
`catch` branch shows an error toast and returns `false`. -/
def createSession (st : Store) (sessionCode facilitatorId facilitatorName : String)
    (writeFails : Bool) : OpResult :=
  if writeFails then
    ⟨st, .bool false, ["Failed to create workshop session"]⟩
  else
    let node : SessionNode :=
      ⟨some sessionCode, some facilitatorId, some facilitatorName,
       some 0, some false, some 0, some "active"⟩
    let ss := alSet st.sessions sessionCode node
    ⟨{ st with sessions := ss }, .bool true, []⟩

/-- `FirebaseService.sessionExists`: reads `sessions/{code}` once; its own
`catch` swallows any read error and reports `false`. -/
def sessionExists (st : Store) (sessionCode : String) (readFails : Bool) : Bool :=
  if readFails then false else sessionNodeExists st sessionCode

/-- `FirebaseService.joinSession`: checks existence first; refuses with
'Workshop session not found' when absent, otherwise one `set` on
`sessions/{code}/participants/{id}`; its `catch` shows
'Failed to join workshop session' and returns `false`. -/
def joinSession (st : Store) (sessionCode participantId participantName : String)
    (readFails writeFails : Bool) : OpResult :=
  if !(sessionExists st sessionCode readFails) then
    ⟨st, .bool false, ["Workshop session not found"]⟩
  else if writeFails then
    ⟨st, .bool false, ["Failed to join workshop session"]⟩
  else
    let rec0 : ParticipantRec :=
      ⟨some participantId, some participantName, some "online", none⟩
    let ps := alSet st.participants (sessionCode, participantId) rec0
    ⟨{ st with participants := ps }, .bool true, []⟩

/-- `FirebaseService.updatePhase`: one `set` on `sessions/{code}/phase`; the
`catch` only logs (no toast) and returns `false`. -/
def updatePhase (st : Store) (sessionCode : String) (phaseIndex : Int)
    (writeFails : Bool) : OpResult :=
  if writeFails then ⟨st, .bool false, []⟩
  else
    let node := (alGet st.sessions sessionCode).getD emptySessionNode
    let ss := alSet st.sessions sessionCode { node with phase := some phaseIndex }
    ⟨{ st with sessions := ss }, .bool true, []⟩

/-- `FirebaseService.updateTimer`: one `update` of `timerActive` and
`timerDuration` on `sessions/{code}`; the `catch` only logs. -/
def updateTimer (st : Store) (sessionCode : String) (active : Bool)
    (duration : Int) (writeFails : Bool) : OpResult :=
  if writeFails then ⟨st, .bool false, []⟩
  else
    let node := (alGet st.sessions sessionCode).getD emptySessionNode
    let node2 := { node with timerActive := some active,
                               timerDuration := some duration }
    let ss := alSet st.sessions sessionCode node2
    ⟨{ st with sessions := ss }, .bool true, []⟩

/-- `FirebaseService.endSession`: one `set` of `'ended'` on
`sessions/{code}/status`; the `catch` only logs. -/
def endSession (st : Store) (sessionCode : String) (writeFails : Bool) :
    OpResult :=
  if writeFails then ⟨st, .bool false, []⟩
  else
    let node := (alGet st.sessions sessionCode).getD emptySessionNode
    let ss := alSet st.sessions sessionCode { node with status := some "ended" }
    ⟨{ st with sessions := ss }, .bool true, []⟩

/-- `FirebaseService.saveThemes`: one `set` on `themes/{code}/table{n}`; the
`catch` shows 'Failed to save themes' and returns `false`. -/
def saveThemes (st : Store) (sessionCode : String) (tableNumber : Nat)
    (themes : List String) (synthesis : Option String) (writeFails : Bool) :
    OpResult :=
  if writeFails then ⟨st, .bool false, ["Failed to save themes"]⟩
  else
    let ts := alSet st.themes (sessionCode, tableNumber)
      ⟨sessionCode, tableNumber, themes, synthesis⟩
    ⟨{ st with themes := ts }, .bool true, []⟩

/-- `FirebaseService.saveTranscript`: `push()` then `set`; returns the new
push key (a string) on success and `null` from its `catch` on failure —
not a boolean. -/
def saveTranscript (st : Store) (sessionCode : String) (tableNumber : Nat)
    (phaseIndex : Int) (transcript : String) (duration : Int)
    (writeFails : Bool) : OpResult :=
  if writeFails then ⟨st, .null, ["Failed to save transcript"]⟩
  else
    let key := "push" ++ toString st.nextPushId
    let tl := st.transcripts ++
      [(sessionCode, key, ⟨sessionCode, tableNumber, phaseIndex,
        transcript, duration⟩)]
    ⟨{ st with transcripts := tl, nextPushId := st.nextPushId + 1 },
     .str key, []⟩

/-- `FirebaseService.getTranscripts`: reads `transcripts/{code}`, optionally
filtered by `orderByChild('phaseIndex').equalTo(phaseIndex)`; its `catch`
returns `[]`. -/
def getTranscripts (st : Store) (sessionCode : String)
    (phaseIndex : Option Int) (readFails : Bool) : List TranscriptRec :=
  if readFails then []
  else
    (st.transcripts.filter (fun p =>
      decide (p.1 = sessionCode) &&
        match phaseIndex with
        | none => true
        | some i => decide (p.2.2.phaseIndex = i))).map
      (fun p => p.2.2)

/-! ## Association-list lemmas -/

theorem alGet_alSet_same {κ α : Type} [DecidableEq κ] (l : List (κ × α))
    (k : κ) (v : α) : alGet (alSet l k v) k = some v := by
  unfold alGet alSet
  simp [List.find?_cons]

theorem find?_filter_ne {κ α : Type} [DecidableEq κ] (l : List (κ × α))
    (k kp : κ) (hne : kp ≠ k) :
    (l.filter (fun p => decide (p.1 ≠ k))).find? (fun p => decide (p.1 = kp)) =
      l.find? (fun p => decide (p.1 = kp)) := by
  induction l with
  | nil => rfl
  | cons a t ih =>
    by_cases ha : a.1 = k
    · have h2 : decide (a.1 = kp) = false := by
        simp only [decide_eq_false_iff_not]
        exact fun he => hne (he.symm.trans ha)
      rw [List.filter_cons, if_neg (by simp [ha]), List.find?_cons, h2]
      exact ih
    · by_cases hp : a.1 = kp
      · have hp2 : decide (a.1 = kp) = true := by simp [hp]
        rw [List.filter_cons, if_pos (by simp [ha]), List.find?_cons,
            List.find?_cons, hp2]
      · have hp2 : decide (a.1 = kp) = false := by simp [hp]
        rw [List.filter_cons, if_pos (by simp [ha]), List.find?_cons,
            List.find?_cons, hp2]
        exact ih

theorem alGet_alSet_ne {κ α : Type} [DecidableEq κ] (l : List (κ × α))
    (k kp : κ) (v : α) (hne : kp ≠ k) :
    alGet (alSet l k v) kp = alGet l kp := by
  unfold alGet alSet
  have hk : decide ((k, v).1 = kp) = false := by
    simp only [decide_eq_false_iff_not]
    exact fun he => hne he.symm
  rw [List.find?_cons, hk, find?_filter_ne l k kp hne]

/-! ## joinSession lemmas (shared) -/

/-- The participant record `joinSession` writes. -/
def joinedParticipant (pid pname : String) : ParticipantRec :=
  ⟨some pid, some pname, some "online", none⟩

/-- The store after a successful `joinSession` write. -/
def joinStore (st : Store) (code pid pname : String) : Store :=
  let ps := alSet st.participants (code, pid) (joinedParticipant pid pname)
  { st with participants := ps }


theorem joinSession_not_found (st : Store) (code pid pname : String)
    (rf wf : Bool) (h : sessionExists st code rf = false) :
    joinSession st code pid pname rf wf =
      ⟨st, .bool false, ["Workshop session not found"]⟩ := by
  unfold joinSession
  rw [h]
  simp

theorem joinSession_success (st : Store) (code pid pname : String)
    (rf : Bool) (h : sessionExists st code rf = true) :
    joinSession st code pid pname rf false =
      ⟨joinStore st code pid pname, .bool true, []⟩ := by
  unfold joinSession joinStore joinedParticipant
  rw [h]
  simp

/-! ## Example stores shared by the claim witnesses -/

def stWithSession : Store :=
  (createSession emptyStore "ABC123" "fac1" "Fay" false).store

def stEnded : Store := (endSession stWithSession "ABC123" false).store

/-- C1: `joinSession` checks existence first: when the check reports the
session absent, it surfaces 'Workshop session not found', returns `false`,
and writes no participant record; when the session exists (and the
participant write is not rejected — rejected writes are claim C2's subject),
it writes the participant record under `sessions/{code}/participants/{id}`
and returns `true`. -/
theorem claimC1_theorem (st : Store) (code pid pname : String) (rf wf : Bool) :
    (sessionExists st code rf = false →
      joinSession st code pid pname rf wf =
        ⟨st, .bool false, ["Workshop session not found"]⟩) ∧
    (sessionExists st code rf = true →
      joinSession st code pid pname rf false =
        ⟨joinStore st code pid pname, .bool true, []⟩ ∧
      alGet (joinSession st code pid pname rf false).store.participants
          (code, pid) = some (joinedParticipant pid pname)) := by
  constructor
  · exact joinSession_not_found st code pid pname rf wf
  · intro h
    refine ⟨joinSession_success st code pid pname rf h, ?_⟩
    rw [joinSession_success st code pid pname rf h]
    show alGet (joinStore st code pid pname).participants (code, pid) =
      some (joinedParticipant pid pname)
    simp only [joinStore]
    exact alGet_alSet_same st.participants (code, pid)
      (joinedParticipant pid pname)

/-- Witness for C1 at concrete stores: joining an absent code on the empty
store is refused; joining `stWithSession` succeeds and records the
participant. -/
theorem claimC1_witness :
    sessionExists emptyStore "ABC123" false = false ∧
    joinSession emptyStore "ABC123" "p1" "Pat" false false =
      ⟨emptyStore, .bool false, ["Workshop session not found"]⟩ ∧
    sessionExists stWithSession "ABC123" false = true ∧
    alGet (joinSession stWithSession "ABC123" "p1" "Pat" false
      false).store.participants ("ABC123", "p1") =
      some ⟨some "p1", some "Pat", some "online", none⟩ := by
  refine ⟨by decide, ?_, by decide, ?_⟩
  · exact (claimC1_theorem emptyStore "ABC123" "p1" "Pat" false false).1
      (by decide)
  · exact ((claimC1_theorem stWithSession "ABC123" "p1" "Pat" false false).2
      (by decide)).2

/-- C2 (amended): every write operation of the adapter catches a rejected
store write and returns a failure indicator to its caller instead of raising
(the store is left unchanged); `createSession`, `joinSession`, `updatePhase`,
`updateTimer`, `endSession` and `saveThemes` always yield a boolean, but
`saveTranscript` yields the new push key (a string) on success and `null` on
failure — not a boolean. -/
theorem claimC2_theorem (st : Store) (code fid fname pid pname : String)
    (p : Int) (a : Bool) (d : Int) (tn : Nat) (ths : List String)
    (syn : Option String) (txt : String) (dur : Int) (rf wf : Bool) :
    createSession st code fid fname true =
      ⟨st, .bool false, ["Failed to create workshop session"]⟩ ∧
    (joinSession st code pid pname rf true).store = st ∧
    (joinSession st code pid pname rf true).ret = .bool false ∧
    updatePhase st code p true = ⟨st, .bool false, []⟩ ∧
    updateTimer st code a d true = ⟨st, .bool false, []⟩ ∧
    endSession st code true = ⟨st, .bool false, []⟩ ∧
    saveThemes st code tn ths syn true =
      ⟨st, .bool false, ["Failed to save themes"]⟩ ∧
    saveTranscript st code tn p txt dur true =
      ⟨st, .null, ["Failed to save transcript"]⟩ ∧
    (∃ b, (createSession st code fid fname wf).ret = .bool b) ∧
    (∃ b, (joinSession st code pid pname rf wf).ret = .bool b) ∧
    (∃ b, (updatePhase st code p wf).ret = .bool b) ∧
    (∃ b, (updateTimer st code a d wf).ret = .bool b) ∧
    (∃ b, (endSession st code wf).ret = .bool b) ∧
    (∃ b, (saveThemes st code tn ths syn wf).ret = .bool b) ∧
    (∀ b, (saveTranscript st code tn p txt dur wf).ret ≠ .bool b) := by
  refine ⟨rfl, ?_, ?_, rfl, rfl, rfl, rfl, rfl, ?_, ?_, ?_, ?_, ?_, ?_, ?_⟩
  · unfold joinSession
    split
    · rfl
    · rfl
  · unfold joinSession
    split
    · rfl
    · rfl
  · cases wf <;> exact ⟨_, rfl⟩
  · unfold joinSession
    split
    · exact ⟨false, rfl⟩
    · cases wf
      · exact ⟨true, rfl⟩
      · exact ⟨false, rfl⟩
  · cases wf <;> exact ⟨_, rfl⟩
  · cases wf <;> exact ⟨_, rfl⟩
  · cases wf <;> exact ⟨_, rfl⟩
  · cases wf <;> exact ⟨_, rfl⟩
  · cases wf <;> intro b <;> simp [saveTranscript]

/-- C2 counterexample: `saveTranscript` is one of the adapter's write
operations, yet its success result is the push-key string `"push0"` and its
failure result is `null` — neither is a boolean, refuting 'every write
operation yields a boolean success result'. -/
theorem claimC2_counterexample :
    (saveTranscript emptyStore "ABC123" 1 0 "hello" 5 false).ret =
      .str "push0" ∧
    (∀ b, JSRet.str "push0" ≠ .bool b) ∧
    (saveTranscript emptyStore "ABC123" 1 0 "hello" 5 true).ret = .null ∧
    (∀ b, JSRet.null ≠ .bool b) := by
  decide

/-- C9: `sessionExists` also reports `false` when the underlying read
throws, so `joinSession` refuses a transient read failure with exactly the
same returned value and user-visible error as a genuinely absent session —
the two cases are indistinguishable to the caller. -/
theorem claimC9_theorem (st st2 : Store) (code pid pname : String)
    (wf wf2 : Bool) (h : sessionNodeExists st2 code = false) :
    sessionExists st code true = false ∧
    joinSession st code pid pname true wf =
      ⟨st, .bool false, ["Workshop session not found"]⟩ ∧
    joinSession st2 code pid pname false wf2 =
      ⟨st2, .bool false, ["Workshop session not found"]⟩ ∧
    (joinSession st code pid pname true wf).ret =
      (joinSession st2 code pid pname false wf2).ret ∧
    (joinSession st code pid pname true wf).errors =
      (joinSession st2 code pid pname false wf2).errors := by
  have h1 : sessionExists st code true = false := rfl
  have h2 : sessionExists st2 code false = false := by
    unfold sessionExists
    simpa using h
  have e1 := joinSession_not_found st code pid pname true wf h1
  have e2 := joinSession_not_found st2 code pid pname false wf2 h2
  exact ⟨h1, e1, e2, by rw [e1, e2], by rw [e1, e2]⟩

/-- Witness for C9: a read failure over a store that does contain session
`ABC123` is refused identically to the genuinely empty store. -/
theorem claimC9_witness :
    sessionNodeExists emptyStore "ABC123" = false ∧
    joinSession stWithSession "ABC123" "p1" "Pat" true false =
      ⟨stWithSession, .bool false, ["Workshop session not found"]⟩ ∧
    joinSession emptyStore "ABC123" "p1" "Pat" false false =
      ⟨emptyStore, .bool false, ["Workshop session not found"]⟩ := by
  refine ⟨by decide, ?_, ?_⟩
  · exact (claimC9_theorem stWithSession emptyStore "ABC123" "p1" "Pat"
      false false (by decide)).2.1
  · exact (claimC9_theorem stWithSession emptyStore "ABC123" "p1" "Pat"
      false false (by decide)).2.2.1

/-- The session node `createSession` writes (phase 0, timer off, active). -/
def freshSessionNode (code fid fname : String) : SessionNode :=
  ⟨some code, some fid, some fname, some 0, some false, some 0, some "active"⟩

/-- C4 counterexample: after `endSession "ABC123"` succeeds (returns `true`,
status is `'ended'`), a subsequent `updatePhase` still mutates the phase
(0 to 3) and a subsequent `createSession` on the same code flips the status
back to `'active'` — the 'ended' status is not terminal. -/
theorem claimC4_counterexample :
    (endSession stWithSession "ABC123" false).ret = .bool true ∧
    alGet stEnded.sessions "ABC123" =
      some ⟨some "ABC123", some "fac1", some "Fay", some 0, some false,
        some 0, some "ended"⟩ ∧
    alGet ((updatePhase stEnded "ABC123" 3 false).store).sessions "ABC123" =
      some ⟨some "ABC123", some "fac1", some "Fay", some 3, some false,
        some 0, some "ended"⟩ ∧
    alGet ((createSession stEnded "ABC123" "fac2" "Kim"
        false).store).sessions "ABC123" =
      some ⟨some "ABC123", some "fac2", some "Kim", some 0, some false,
        some 0, some "active"⟩ := by
  decide

/-- C4 (amended): `endSession` marks the session `'ended'` and returns
`true`, but no adapter operation checks the status afterwards: on a session
whose status is `'ended'`, `updatePhase` still rewrites the phase,
`updateTimer` still rewrites the timer fields, and `createSession` on the
same code overwrites the whole record with a fresh `'active'` session;
`joinSession` leaves the session record itself unchanged. -/
theorem claimC4_theorem (st : Store) (code fid fname pid pname : String)
    (node : SessionNode) (p : Int) (a : Bool) (d : Int) (rf : Bool)
    (hn : alGet st.sessions code = some node)
    (_hs : node.status = some "ended") :
    (endSession st code false).ret = .bool true ∧
    alGet ((endSession st code false).store).sessions code =
      some { node with status := some "ended" } ∧
    alGet ((updatePhase st code p false).store).sessions code =
      some { node with phase := some p } ∧
    alGet ((updateTimer st code a d false).store).sessions code =
      some { node with timerActive := some a, timerDuration := some d } ∧
    alGet ((createSession st code fid fname false).store).sessions code =
      some (freshSessionNode code fid fname) ∧
    ((joinSession st code pid pname rf false).store).sessions =
      st.sessions := by
  refine ⟨rfl, ?_, ?_, ?_, ?_, ?_⟩
  · unfold endSession
    simp only [Bool.false_eq_true, if_false, hn, Option.getD_some]
    exact alGet_alSet_same st.sessions code _
  · unfold updatePhase
    simp only [Bool.false_eq_true, if_false, hn, Option.getD_some]
    exact alGet_alSet_same st.sessions code _
  · unfold updateTimer
    simp only [Bool.false_eq_true, if_false, hn, Option.getD_some]
    exact alGet_alSet_same st.sessions code _
  · unfold createSession freshSessionNode
    simp only [Bool.false_eq_true, if_false]
    exact alGet_alSet_same st.sessions code _
  · unfold joinSession
    split
    · rfl
    · rfl

/-- Witness for C4 (amended) on the concrete ended store. -/
theorem claimC4_witness :
    alGet stEnded.sessions "ABC123" =
      some ⟨some "ABC123", some "fac1", some "Fay", some 0, some false,
        some 0, some "ended"⟩ ∧
    alGet ((updatePhase stEnded "ABC123" 3 false).store).sessions "ABC123" =
      some ⟨some "ABC123", some "fac1", some "Fay", some 3, some false,
        some 0, some "ended"⟩ ∧
    alGet ((createSession stEnded "ABC123" "fac2" "Kim"
        false).store).sessions "ABC123" =
      some (freshSessionNode "ABC123" "fac2" "Kim") := by
  refine ⟨by decide, ?_, ?_⟩
  · exact (claimC4_theorem stEnded "ABC123" "fac2" "Kim" "p1" "Pat"
      ⟨some "ABC123", some "fac1", some "Fay", some 0, some false, some 0,
        some "ended"⟩ 3 false 0 false (by decide) rfl).2.2.1
  · exact (claimC4_theorem stEnded "ABC123" "fac2" "Kim" "p1" "Pat"
      ⟨some "ABC123", some "fac1", some "Fay", some 0, some false, some 0,
        some "ended"⟩ 3 false 0 false (by decide) rfl).2.2.2.2.1

/-! ## Theme generation (facilitator controller, handleGenerateThemes)

`handleGenerateThemes` groups the phase's transcripts by table number in a
plain JS object and iterates `Object.entries` over it; integer-like object
keys enumerate in ascending numeric order, modelled by an insertion sort
over the distinct table numbers.  The theme proxy call is abstracted by the
oracle `fetchThemes`: `none` models a rejected fetch or a non-OK response
(the `catch` of `generateThemesFromText` then supplies the fallback list),
`some ts` models a 200 response whose parsed theme payload is `ts`. -/

def insertAsc (n : Nat) : List Nat → List Nat
  | [] => [n]
  | m :: ms => if n ≤ m then n :: m :: ms else m :: insertAsc n ms

def sortAsc (l : List Nat) : List Nat := l.foldr insertAsc []

/-- The distinct table numbers of the transcripts, in the ascending order
`Object.entries` enumerates integer-like keys. -/
def tableKeys (ts : List TranscriptRec) : List Nat :=
  sortAsc ((ts.map (fun r => r.tableNumber)).dedup)

/-- `texts.join('\n\n')` for one table, texts in encounter order. -/
def combinedTextFor (ts : List TranscriptRec) (t : Nat) : String :=
  String.intercalate "\n\n"
    ((ts.filter (fun r => decide (r.tableNumber = t))).map
      (fun r => r.transcript))

/-- The `tableTranscripts` object as an `Object.entries` list. -/
def groupTables (ts : List TranscriptRec) : List (Nat × String) :=
  (tableKeys ts).map (fun t => (t, combinedTextFor ts t))

/-- `generateThemesFromText` (facilitator controller): its own `catch`
swallows any fetch failure and returns the fallback list, so it never
throws into `handleGenerateThemes`. -/
def generateThemesFromText (fetchThemes : String → Option (List String))
    (text : String) : List String :=
  match fetchThemes text with
  | some themes => themes
  | none => ["Theme extraction failed"]

/-- Observable effects of one `handleGenerateThemes` run: the texts sent to
the theme proxy, the `(table, themes)` arguments of each `saveThemes` call,
the error toasts, and the success toasts. -/
structure ThemesTrace where
  proxyCalls : List String
  saveCalls : List (Nat × List String)
  errors : List String
  successes : List String
deriving DecidableEq

def emptyTrace : ThemesTrace := ⟨[], [], [], []⟩

/-- The `for (const [tableNum, texts] of Object.entries(...))` loop: one
proxy call and one `saveThemes` per table, sequentially; `saveThemes`
catches its own write failure (returning `false`, which the loop ignores),
so the loop always reaches every table. -/
def runTables (code : String) (fetchThemes : String → Option (List String))
    (writeFails : Nat → Bool) :
    Store → List (Nat × String) → Store × ThemesTrace
  | st, [] => (st, emptyTrace)
  | st, (t, text) :: rest =>
    let themes := generateThemesFromText fetchThemes text
    let r := saveThemes st code t themes none (writeFails t)
    let res := runTables code fetchThemes writeFails r.store rest
    (res.1, ⟨text :: res.2.proxyCalls, (t, themes) :: res.2.saveCalls,
      r.errors ++ res.2.errors, res.2.successes⟩)

/-- `handleGenerateThemes` (facilitator controller), for a live session
`code` at phase `phase`. -/
def handleGenerateThemes (st : Store) (code : String) (phase : Int)
    (fetchThemes : String → Option (List String)) (writeFails : Nat → Bool)
    (readFails : Bool) : Store × ThemesTrace :=
  let transcripts := getTranscripts st code (some phase) readFails
  if transcripts = [] then
    (st, ⟨[], [], ["No transcripts found for this phase"], []⟩)
  else
    let res := runTables code fetchThemes writeFails st
      (groupTables transcripts)
    (res.1, { res.2 with
      successes := res.2.successes ++ ["Themes generated successfully!"] })

/-! ## Sorting lemmas -/

theorem mem_insertAsc (x n : Nat) (l : List Nat) :
    x ∈ insertAsc n l ↔ x = n ∨ x ∈ l := by
  induction l with
  | nil => simp [insertAsc]
  | cons m ms ih =>
    unfold insertAsc
    by_cases h : n ≤ m <;> simp [h, ih] <;> tauto

theorem nodup_insertAsc (n : Nat) (l : List Nat) (hn : n ∉ l)
    (h : l.Nodup) : (insertAsc n l).Nodup := by
  induction l with
  | nil => simp [insertAsc]
  | cons m ms ih =>
    unfold insertAsc
    rw [List.nodup_cons] at h
    obtain ⟨hm, hms⟩ := h
    have hn2 : n ∉ ms := fun hx => hn (List.mem_cons_of_mem m hx)
    have hnm : n ≠ m := fun he => hn (he ▸ List.mem_cons_self m ms)
    by_cases hle : n ≤ m
    · rw [if_pos hle, List.nodup_cons, List.nodup_cons]
      exact ⟨hn, hm, hms⟩
    · rw [if_neg hle, List.nodup_cons]
      refine ⟨?_, ih hn2 hms⟩
      intro hmem
      rcases (mem_insertAsc m n ms).mp hmem with he | hx
      · exact hnm he.symm
      · exact hm hx

theorem mem_sortAsc (x : Nat) (l : List Nat) : x ∈ sortAsc l ↔ x ∈ l := by
  induction l with
  | nil => simp [sortAsc]
  | cons a t ih =>
    have hs : sortAsc (a :: t) = insertAsc a (sortAsc t) := rfl
    rw [hs]
    simp [mem_insertAsc, ih]

theorem nodup_sortAsc (l : List Nat) (h : l.Nodup) : (sortAsc l).Nodup := by
  induction l with
  | nil => simp [sortAsc]
  | cons a t ih =>
    rw [List.nodup_cons] at h
    have hs : sortAsc (a :: t) = insertAsc a (sortAsc t) := rfl
    rw [hs]
    exact nodup_insertAsc a (sortAsc t)
      (fun hx => h.1 ((mem_sortAsc a t).mp hx)) (ih h.2)

theorem tableKeys_nodup (ts : List TranscriptRec) : (tableKeys ts).Nodup :=
  nodup_sortAsc _ (List.nodup_dedup _)

theorem mem_tableKeys (ts : List TranscriptRec) (t : Nat) :
    t ∈ tableKeys ts ↔ ∃ r ∈ ts, r.tableNumber = t := by
  unfold tableKeys
  rw [mem_sortAsc, List.mem_dedup, List.mem_map]

/-! ## runTables lemmas -/

theorem saveThemes_store_themes (st : Store) (code : String) (tn : Nat)
    (ths : List String) (syn : Option String) (wf : Bool) :
    (saveThemes st code tn ths syn wf).store.themes =
      if wf then st.themes
      else alSet st.themes (code, tn) ⟨code, tn, ths, syn⟩ := by
  cases wf <;> simp [saveThemes]

theorem runTables_proxyCalls (code : String)
    (f : String → Option (List String)) (w : Nat → Bool) :
    ∀ (l : List (Nat × String)) (st : Store),
      (runTables code f w st l).2.proxyCalls = l.map (fun p => p.2) := by
  intro l
  induction l with
  | nil => intro st; rfl
  | cons q rest ih =>
    intro st
    obtain ⟨t, text⟩ := q
    simp only [runTables, List.map_cons]
    rw [ih]

theorem runTables_saveCalls (code : String)
    (f : String → Option (List String)) (w : Nat → Bool) :
    ∀ (l : List (Nat × String)) (st : Store),
      (runTables code f w st l).2.saveCalls =
        l.map (fun p => (p.1, generateThemesFromText f p.2)) := by
  intro l
  induction l with
  | nil => intro st; rfl
  | cons q rest ih =>
    intro st
    obtain ⟨t, text⟩ := q
    simp only [runTables, List.map_cons]
    rw [ih]

theorem runTables_themes_other (code : String)
    (f : String → Option (List String)) (w : Nat → Bool) (k : Nat) :
    ∀ (l : List (Nat × String)) (st : Store),
      k ∉ l.map (fun p => p.1) →
      alGet (runTables code f w st l).1.themes (code, k) =
        alGet st.themes (code, k) := by
  intro l
  induction l with
  | nil => intro st _; rfl
  | cons q rest ih =>
    intro st hk
    obtain ⟨t, text⟩ := q
    simp only [List.map_cons, List.mem_cons, not_or] at hk
    obtain ⟨hk1, hk2⟩ := hk
    simp only [runTables]
    rw [ih _ hk2, saveThemes_store_themes]
    cases hw : w t
    · rw [if_neg (by simp)]
      exact alGet_alSet_ne st.themes (code, t) (code, k) _
        (fun he => hk1 (congrArg Prod.snd he))
    · rw [if_pos rfl]

theorem runTables_themes_hit (code : String)
    (f : String → Option (List String)) (w : Nat → Bool) (p : Nat × String) :
    ∀ (l : List (Nat × String)) (st : Store),
      (l.map (fun q => q.1)).Nodup → p ∈ l → w p.1 = false →
      alGet (runTables code f w st l).1.themes (code, p.1) =
        some ⟨code, p.1, generateThemesFromText f p.2, none⟩ := by
  intro l
  induction l with
  | nil => intro st _ hp _; cases hp
  | cons q rest ih =>
    intro st hnd hp hw
    obtain ⟨t, text⟩ := q
    simp only [List.map_cons, List.nodup_cons] at hnd
    obtain ⟨hq, hnd2⟩ := hnd
    rcases List.mem_cons.mp hp with he | hmem
    · subst he
      simp only [runTables]
      rw [runTables_themes_other code f w _ rest _ hq,
          saveThemes_store_themes, hw, if_neg (by simp)]
      exact alGet_alSet_same _ _ _
    · simp only [runTables]
      exact ih _ hnd2 hmem hw

theorem groupTables_fst (ts : List TranscriptRec) :
    (groupTables ts).map (fun p => p.1) = tableKeys ts := by
  unfold groupTables
  rw [List.map_map]
  exact List.map_id _

/-- C5: when the transcript query for the current phase returns an empty
list, `handleGenerateThemes` surfaces 'No transcripts found for this phase',
issues zero theme-proxy requests, performs zero `saveThemes` calls, and
leaves the store unchanged. -/
theorem claimC5_theorem (st : Store) (code : String) (phase : Int)
    (fetchThemes : String → Option (List String)) (writeFails : Nat → Bool)
    (readFails : Bool)
    (h : getTranscripts st code (some phase) readFails = []) :
    handleGenerateThemes st code phase fetchThemes writeFails readFails =
      (st, ⟨[], [], ["No transcripts found for this phase"], []⟩) := by
  unfold handleGenerateThemes
  rw [h]
  simp

/-- Witness for C5: the empty store holds no transcripts, so the run only
reports the error. -/
theorem claimC5_witness :
    getTranscripts emptyStore "ABC123" (some 0) false = [] ∧
    handleGenerateThemes emptyStore "ABC123" 0 (fun _ => none)
        (fun _ => false) false =
      (emptyStore, ⟨[], [], ["No transcripts found for this phase"], []⟩) := by
  refine ⟨by decide, ?_⟩
  exact claimC5_theorem emptyStore "ABC123" 0 (fun _ => none) (fun _ => false)
    false (by decide)

/-- C6: on a non-empty transcript set for the phase, `handleGenerateThemes`
groups transcripts by table, issues exactly one theme-proxy call per
distinct table in sequence, and issues one independent `saveThemes` call per
table; the table list is duplicate-free and covers exactly the tables
appearing in the transcripts, and each table whose write is not rejected
ends with its own themes recorded regardless of the request or write
failures of every other table. -/
theorem claimC6_theorem (st : Store) (code : String) (phase : Int)
    (fetchThemes : String → Option (List String)) (writeFails : Nat → Bool)
    (readFails : Bool)
    (hne : getTranscripts st code (some phase) readFails ≠ []) :
    ((handleGenerateThemes st code phase fetchThemes writeFails
        readFails).2.proxyCalls =
      (groupTables (getTranscripts st code (some phase) readFails)).map
        (fun p => p.2)) ∧
    ((handleGenerateThemes st code phase fetchThemes writeFails
        readFails).2.saveCalls =
      (groupTables (getTranscripts st code (some phase) readFails)).map
        (fun p => (p.1, generateThemesFromText fetchThemes p.2))) ∧
    (tableKeys (getTranscripts st code (some phase) readFails)).Nodup ∧
    (∀ t, t ∈ tableKeys (getTranscripts st code (some phase) readFails) ↔
      ∃ r ∈ getTranscripts st code (some phase) readFails,
        r.tableNumber = t) ∧
    (∀ p ∈ groupTables (getTranscripts st code (some phase) readFails),
      writeFails p.1 = false →
      alGet (handleGenerateThemes st code phase fetchThemes writeFails
          readFails).1.themes (code, p.1) =
        some ⟨code, p.1, generateThemesFromText fetchThemes p.2, none⟩) := by
  have hrun : handleGenerateThemes st code phase fetchThemes writeFails
      readFails =
      ((runTables code fetchThemes writeFails st
          (groupTables (getTranscripts st code (some phase) readFails))).1,
       { (runTables code fetchThemes writeFails st
           (groupTables (getTranscripts st code (some phase)
             readFails))).2 with
         successes := (runTables code fetchThemes writeFails st
           (groupTables (getTranscripts st code (some phase)
             readFails))).2.successes ++ ["Themes generated successfully!"] }) := by
    unfold handleGenerateThemes
    rw [if_neg hne]
  refine ⟨?_, ?_, tableKeys_nodup _, mem_tableKeys _, ?_⟩
  · rw [hrun]
    exact runTables_proxyCalls code fetchThemes writeFails _ st
  · rw [hrun]
    exact runTables_saveCalls code fetchThemes writeFails _ st
  · intro p hp hw
    rw [hrun]
    refine runTables_themes_hit code fetchThemes writeFails p _ st ?_ hp hw
    rw [groupTables_fst]
    exact tableKeys_nodup _

/-- Example store for the C6 witness: two transcripts in phase 0, tables 2
and 1 (in that push order). -/
def stTwoTables : Store :=
  (saveTranscript ((saveTranscript stWithSession "ABC123" 2 0 "alpha" 5
    false).store) "ABC123" 1 0 "beta" 4 false).store

/-- Oracle for the C6 witness: the request for table 1's text fails, the
request for table 2's text succeeds. -/
def exFetch : String → Option (List String) :=
  fun s => if s = "beta" then none else some ["Extracted theme"]

/-- Oracle for the C6 witness: table 1's theme write is rejected. -/
def exWriteFails : Nat → Bool := fun t => decide (t = 1)

/-- Witness for C6: with table 1's request and write both failing, both
tables still get exactly one proxy call and one save call each, and table
2's themes are recorded untouched. -/
theorem claimC6_witness :
    getTranscripts stTwoTables "ABC123" (some 0) false ≠ [] ∧
    (handleGenerateThemes stTwoTables "ABC123" 0 exFetch exWriteFails
        false).2.proxyCalls = ["beta", "alpha"] ∧
    (handleGenerateThemes stTwoTables "ABC123" 0 exFetch exWriteFails
        false).2.saveCalls =
      [(1, ["Theme extraction failed"]), (2, ["Extracted theme"])] ∧
    alGet (handleGenerateThemes stTwoTables "ABC123" 0 exFetch exWriteFails
        false).1.themes ("ABC123", 2) =
      some ⟨"ABC123", 2, ["Extracted theme"], none⟩ := by
  have h := claimC6_theorem stTwoTables "ABC123" 0 exFetch exWriteFails false
    (by decide)
  refine ⟨by decide, ?_, ?_, ?_⟩
  · rw [h.1]
    decide
  · rw [h.2.1]
    decide
  · exact h.2.2.2.2 (2, "alpha") (by decide) (by decide)

/-! ## Debounce (js/utils.js `Utils.debounce`, 500 ms wrapper)

`debounce(func, wait)` keeps one pending timeout.  Every call clears the
pending timeout and schedules `func` with the current arguments at
`now + wait`; the pending invocation fires only if it is still scheduled
when its deadline passes.  `debounceSteps` processes a chronological list of
timed calls with the pending invocation as state; a fire is observed at the
first later call past the deadline, and the final pending invocation fires
at quiescence. -/

def debounceSteps {α : Type} (wait : Nat) :
    Option (Nat × α) → List (Nat × α) → List α
  | pending, [] =>
    match pending with
    | some p => [p.2]
    | none => []
  | pending, (t, a) :: rest =>
    (match pending with
     | some p => if p.1 ≤ t then [p.2] else []
     | none => []) ++ debounceSteps wait (some (t + wait, a)) rest

/-- The invocations actually fired when the debounced function is called at
the given times with the given arguments. -/
def debounceRun {α : Type} (wait : Nat) (events : List (Nat × α)) : List α :=
  debounceSteps wait none events

/-- The body wrapped by `updateParticipantStatus`: one `set` of `status` on
`sessions/{code}/participants/{id}/status` (its `catch` only logs; the
successful write is modelled).  Arguments are `(code, (id, status))`. -/
def applyStatusWrite (st : Store) (args : String × String × String) : Store :=
  let prev := (alGet st.participants (args.1, args.2.1)).getD
    ⟨none, none, none, none⟩
  let ps := alSet st.participants (args.1, args.2.1)
    { prev with status := some args.2.2 }
  { st with participants := ps }

/-- `FirebaseService.updateParticipantStatus` is
`Utils.debounce(body, 500)`: the store writes it performs on a timed call
sequence are the debounced invocations of the body. -/
def updateParticipantStatus
    (events : List (Nat × String × String × String)) :
    List (String × String × String) :=
  debounceRun 500 events

theorem debounceSteps_within {α : Type} (wait : Nat) :
    ∀ (rest : List (Nat × α)) (t : Nat) (a : α),
      List.Chain' (fun p q => q.1 < p.1 + wait) ((t, a) :: rest) →
      debounceSteps wait (some (t + wait, a)) rest =
        [(((t, a) :: rest).getLast (by simp)).2] := by
  intro rest
  induction rest with
  | nil => intro t a _; rfl
  | cons q rest2 ih =>
    intro t a hch
    obtain ⟨t2, a2⟩ := q
    rw [List.chain'_cons] at hch
    obtain ⟨h12, hch2⟩ := hch
    have hlt : ¬(t + wait ≤ t2) := by
      simp only at h12
      omega
    simp only [debounceSteps, if_neg hlt, List.nil_append]
    rw [ih t2 a2 hch2]
    have hne2 : (t2, a2) :: rest2 ≠ ([] : List (Nat × α)) := by simp
    exact congrArg (fun x => [x.2]) (List.getLast_cons hne2).symm

theorem debounceRun_last {α : Type} (wait : Nat) (events : List (Nat × α))
    (h : events ≠ [])
    (hch : List.Chain' (fun p q => q.1 < p.1 + wait) events) :
    debounceRun wait events = [(events.getLast h).2] := by
  cases events with
  | nil => exact absurd rfl h
  | cons q rest =>
    obtain ⟨t, a⟩ := q
    unfold debounceRun
    simp only [debounceSteps, List.nil_append]
    exact debounceSteps_within wait rest t a hch

/-- C7: when the debounced `updateParticipantStatus` is called `N ≥ 1` times
and each call lands strictly within 500 ms of the previous one, exactly one
underlying status write occurs, carrying the arguments of the last call; the
earlier calls of the window are discarded, so the net store effect is one
write of the last-supplied status. -/
theorem claimC7_theorem (events : List (Nat × String × String × String))
    (h : events ≠ [])
    (hch : List.Chain' (fun p q => q.1 < p.1 + 500) events) :
    updateParticipantStatus events = [(events.getLast h).2] ∧
    (updateParticipantStatus events).length = 1 ∧
    (∀ st : Store, (updateParticipantStatus events).foldl
        applyStatusWrite st = applyStatusWrite st (events.getLast h).2) := by
  have he : updateParticipantStatus events = [(events.getLast h).2] :=
    debounceRun_last 500 events h hch
  refine ⟨he, by rw [he]; rfl, ?_⟩
  intro st
  rw [he]
  rfl

/-- Witness for C7: three calls at 0 ms, 100 ms and 300 ms (gaps below
500 ms) fire exactly one write, with the third call's status. -/
theorem claimC7_witness :
    updateParticipantStatus
        [(0, ("ABC123", "p1", "online")), (100, ("ABC123", "p1", "online")),
         (300, ("ABC123", "p1", "offline"))] =
      [("ABC123", "p1", "offline")] := by
  have h := claimC7_theorem
    [(0, ("ABC123", "p1", "online")), (100, ("ABC123", "p1", "online")),
     (300, ("ABC123", "p1", "offline"))] (by decide)
    (by rw [List.chain'_cons, List.chain'_cons]
        exact ⟨by decide, by decide, List.chain'_singleton _⟩)
  rw [h.1]
  decide

/-! ## Serverless proxies (netlify/functions/openai-proxy.js and
whisper-proxy.js)

Each handler is one request in, one response out.  The upstream fetch is
abstracted by an outcome oracle: `responds ok payload` models a completed
HTTP response (`ok` = `response.ok`; the openai payload folds the
choices/content parsing and its line-split fallback, the whisper payload is
the `text`/`duration` pair), `rejects msg` models the fetch promise
rejecting with message `msg`, and `timesOut` models the 30 s / 60 s
`AbortController` firing.  `upstreamCalls` counts `fetch` invocations and
`timeoutMs` records the `setTimeout` armed around the call. -/

/-- `JSON.parse(event.body)` destructured as `{ prompt, maxTokens = 200 }`:
`malformed` models a parse exception. -/
inductive JsonBody where
  | malformed
  | fields (prompt : Option String) (maxTokens : Option Nat)
deriving DecidableEq

structure OpenAIRequest where
  httpMethod : String
  body : JsonBody
deriving DecidableEq

structure WhisperRequest where
  httpMethod : String
  contentTypeMultipart : Bool
deriving DecidableEq

inductive UpstreamOutcome where
  | responds (ok : Bool) (themes : List String)
  | rejects (msg : String)
  | timesOut
deriving DecidableEq

inductive WhisperUpstream where
  | responds (ok : Bool) (text : String) (duration : Int)
  | rejects (msg : String)
  | timesOut
deriving DecidableEq

/-- Structured response bodies: the JSON error payload carries `error` and
optionally `message`. -/
inductive RespBody where
  | empty
  | errJson (error : String) (message : Option String)
  | themesJson (themes : List String)
  | transcriptJson (text : String) (duration : Int)
deriving DecidableEq

structure ProxyTrace where
  upstreamCalls : Nat
  timeoutMs : Option Nat
  statusCode : Nat
  body : RespBody
deriving DecidableEq

/-- JS falsiness of `prompt` (`undefined` or the empty string). -/
def jsFalsyStr : Option String → Bool
  | none => true
  | some s => decide (s = "")

/-- `exports.handler` of openai-proxy.js. -/
def openaiProxyHandler (req : OpenAIRequest) (apiKeyOk : Bool)
    (upstream : UpstreamOutcome) : ProxyTrace :=
  if req.httpMethod = "OPTIONS" then ⟨0, none, 204, .empty⟩
  else if req.httpMethod ≠ "POST" then
    ⟨0, none, 405, .errJson "Method not allowed" none⟩
  else if !apiKeyOk then
    ⟨0, none, 500, .errJson "Failed to generate themes"
      (some "OpenAI API key not configured")⟩
  else
    match req.body with
    | .malformed =>
      ⟨0, none, 500, .errJson "Failed to generate themes"
        (some "Unexpected token in JSON")⟩
    | .fields prompt _ =>
      if jsFalsyStr prompt then
        ⟨0, none, 400, .errJson "Prompt is required" none⟩
      else
        match upstream with
        | .responds true themes => ⟨1, some 30000, 200, .themesJson themes⟩
        | .responds false _ =>
          ⟨1, some 30000, 500, .errJson "Failed to generate themes"
            (some "OpenAI API request failed")⟩
        | .rejects msg =>
          ⟨1, some 30000, 500, .errJson "Failed to generate themes" (some msg)⟩
        | .timesOut =>
          ⟨1, some 30000, 500, .errJson "Failed to generate themes"
            (some "Request timeout - OpenAI API took too long to respond")⟩

/-- `exports.handler` of whisper-proxy.js. -/
def whisperProxyHandler (req : WhisperRequest) (apiKeyOk : Bool)
    (upstream : WhisperUpstream) : ProxyTrace :=
  if req.httpMethod = "OPTIONS" then ⟨0, none, 204, .empty⟩
  else if req.httpMethod ≠ "POST" then
    ⟨0, none, 405, .errJson "Method not allowed" none⟩
  else if !apiKeyOk then
    ⟨0, none, 500, .errJson "Failed to transcribe audio"
      (some "OpenAI API key not configured")⟩
  else if !req.contentTypeMultipart then
    ⟨0, none, 400, .errJson "Content-Type must be multipart/form-data" none⟩
  else
    match upstream with
    | .responds true text duration =>
      ⟨1, some 60000, 200, .transcriptJson text duration⟩
    | .responds false _ _ =>
      ⟨1, some 60000, 500, .errJson "Failed to transcribe audio"
        (some "Whisper API request failed")⟩
    | .rejects msg =>
      ⟨1, some 60000, 500, .errJson "Failed to transcribe audio" (some msg)⟩
    | .timesOut =>
      ⟨1, some 60000, 500, .errJson "Failed to transcribe audio"
        (some "Request timeout - audio transcription took too long")⟩

/-- A JSON error payload with both `error` and `message` fields. -/
def isErrorPayload : RespBody → Bool
  | .errJson _ (some _) => true
  | _ => false

def upstreamFailed : UpstreamOutcome → Bool
  | .responds ok _ => !ok
  | .rejects _ => true
  | .timesOut => true

def whisperUpstreamFailed : WhisperUpstream → Bool
  | .responds ok _ _ => !ok
  | .rejects _ => true
  | .timesOut => true

/-- C8 counterexample: a POST whose validation fails makes zero upstream
calls, refuting 'for every POST request, each proxy makes exactly one
upstream API call': the theme proxy answers a prompt-less POST with 400 and
no upstream call, and the transcription proxy does the same for a POST
without multipart content. -/
theorem claimC8_counterexample :
    (openaiProxyHandler ⟨"POST", .fields none none⟩ true
      (.responds true ["T"])).upstreamCalls = 0 ∧
    (openaiProxyHandler ⟨"POST", .fields none none⟩ true
      (.responds true ["T"])).statusCode = 400 ∧
    (whisperProxyHandler ⟨"POST", false⟩ true
      (.responds true "hi" 3)).upstreamCalls = 0 ∧
    (whisperProxyHandler ⟨"POST", false⟩ true
      (.responds true "hi" 3)).statusCode = 400 := by
  decide

/-- C8 (amended): each proxy makes at most one upstream call and never
retries; a POST that passes validation (configured key, parsed body with a
non-falsy prompt / multipart content type) makes exactly one upstream call
under a 30000 ms (theme proxy) or 60000 ms (transcription proxy) timeout;
and on any upstream failure or timeout the response is a single 500 JSON
error payload carrying `error` and `message` fields. -/
theorem claimC8_theorem (req : OpenAIRequest) (wreq : WhisperRequest)
    (keyOk wkeyOk : Bool) (u : UpstreamOutcome) (wu : WhisperUpstream)
    (prompt : Option String) (mt : Option Nat)
    (hm : req.httpMethod = "POST") (hk : keyOk = true)
    (hb : req.body = .fields prompt mt) (hp : jsFalsyStr prompt = false)
    (hwm : wreq.httpMethod = "POST") (hwk : wkeyOk = true)
    (hwc : wreq.contentTypeMultipart = true) :
    (∀ (r : OpenAIRequest) (k : Bool) (u2 : UpstreamOutcome),
       (openaiProxyHandler r k u2).upstreamCalls ≤ 1) ∧
    (∀ (r : WhisperRequest) (k : Bool) (u2 : WhisperUpstream),
       (whisperProxyHandler r k u2).upstreamCalls ≤ 1) ∧
    (openaiProxyHandler req keyOk u).upstreamCalls = 1 ∧
    (openaiProxyHandler req keyOk u).timeoutMs = some 30000 ∧
    (upstreamFailed u = true →
      (openaiProxyHandler req keyOk u).statusCode = 500 ∧
      isErrorPayload (openaiProxyHandler req keyOk u).body = true) ∧
    (whisperProxyHandler wreq wkeyOk wu).upstreamCalls = 1 ∧
    (whisperProxyHandler wreq wkeyOk wu).timeoutMs = some 60000 ∧
    (whisperUpstreamFailed wu = true →
      (whisperProxyHandler wreq wkeyOk wu).statusCode = 500 ∧
      isErrorPayload (whisperProxyHandler wreq wkeyOk wu).body = true) := by
  obtain ⟨m, b⟩ := req
  obtain ⟨wm, wc⟩ := wreq
  simp only at hm hb hwm hwc
  subst hm hb hwm hk hwk
  have hwc2 : wc = true := hwc
  subst hwc2
  refine ⟨?_, ?_, ?_, ?_, ?_, ?_, ?_, ?_⟩
  · intro r k u2
    obtain ⟨m2, b2⟩ := r
    unfold openaiProxyHandler
    repeat' split
    all_goals simp
  · intro r k u2
    obtain ⟨m2, c2⟩ := r
    unfold whisperProxyHandler
    repeat' split
    all_goals simp
  · unfold openaiProxyHandler
    simp only [hp]
    cases u with
    | responds ok themes => cases ok <;> simp
    | rejects msg => simp
    | timesOut => simp
  · unfold openaiProxyHandler
    simp only [hp]
    cases u with
    | responds ok themes => cases ok <;> simp
    | rejects msg => simp
    | timesOut => simp
  · intro hf
    unfold openaiProxyHandler
    simp only [hp]
    cases u with
    | responds ok themes =>
      cases ok
      · simp [isErrorPayload]
      · simp [upstreamFailed] at hf
    | rejects msg => simp [isErrorPayload]
    | timesOut => simp [isErrorPayload]
  · unfold whisperProxyHandler
    cases wu with
    | responds ok text dur => cases ok <;> simp
    | rejects msg => simp
    | timesOut => simp
  · unfold whisperProxyHandler
    cases wu with
    | responds ok text dur => cases ok <;> simp
    | rejects msg => simp
    | timesOut => simp
  · intro hf
    unfold whisperProxyHandler
    cases wu with
    | responds ok text dur =>
      cases ok
      · simp [isErrorPayload]
      · simp [whisperUpstreamFailed] at hf
    | rejects msg => simp [isErrorPayload]
    | timesOut => simp [isErrorPayload]

/-- Witness for C8 (amended): a timed-out theme request and a rejected
transcription request each made exactly one upstream call and produced the
500 error/message payload. -/
theorem claimC8_witness :
    (openaiProxyHandler ⟨"POST", .fields (some "Extract themes") (some 200)⟩
        true .timesOut).upstreamCalls = 1 ∧
    (openaiProxyHandler ⟨"POST", .fields (some "Extract themes") (some 200)⟩
        true .timesOut).statusCode = 500 ∧
    isErrorPayload (openaiProxyHandler
        ⟨"POST", .fields (some "Extract themes") (some 200)⟩
        true .timesOut).body = true ∧
    (whisperProxyHandler ⟨"POST", true⟩ true
        (.rejects "socket hang up")).upstreamCalls = 1 ∧
    (whisperProxyHandler ⟨"POST", true⟩ true
        (.rejects "socket hang up")).timeoutMs = some 60000 := by
  have h := claimC8_theorem
    ⟨"POST", .fields (some "Extract themes") (some 200)⟩ ⟨"POST", true⟩
    true true .timesOut (.rejects "socket hang up")
    (some "Extract themes") (some 200) rfl rfl rfl (by decide) rfl rfl rfl
  exact ⟨h.2.2.1, (h.2.2.2.2.1 rfl).1, (h.2.2.2.2.1 rfl).2,
    h.2.2.2.2.2.1, h.2.2.2.2.2.2.1⟩
